import Mathlib

/-!
Verification of the `@cobalt-ui/plugin-sass` reference plugin
(`packages/plugin-sass/src/index.ts`) against its natural-language
specification.

The development shallowly embeds the plugin: tokens are the resolved,
normalized records the core hands to plugins; the plugin's `build` is a
pure function over them.  Helpers imported from outside the file under
verification (`Indenter` from `@cobalt-ui/utils`, `encode` and
`formatFontNames` from `./util.js`, and the JS host primitives
`String.prototype.localeCompare` / regex replacement) are modelled where
their sources are unavailable; each such definition carries a doc comment
saying so.  Numbers inside token values are embedded as rationals; the
JavaScript decimal rendering of non-integers is not modelled (no verified
property depends on it), integers render exactly as JS does.
-/

namespace CobaltSass

/-- A gradient stop of a `gradient` token: a color literal and a position in `[0,1]`. -/
structure GradientStop where
  color : String
  position : Rat
deriving DecidableEq, Repr

/-- The normalized `$value` of a `shadow` token (this plugin version reads a single layer). -/
structure ShadowValue where
  offsetX : String
  offsetY : String
  blur : String
  spread : String
  color : String
deriving DecidableEq, Repr

/-- The normalized `$value` of a `transition` token. -/
structure TransitionValue where
  duration : String
  delay : String
  timingFunction : Option (List Rat)
deriving DecidableEq, Repr

/-- A property value inside a `typography` token's `$value` record: a string,
a number, or an array of font names (`Array.isArray` distinguishes the last). -/
inductive TypProp where
  | str (s : String)
  | num (n : Int)
  | fonts (names : List String)
deriving DecidableEq, Repr

/-- The tagged union of normalized token values, one case per `$type` the
plugin's `defaultTransformer` switches on, plus `typography` (special-cased
by `build`) and `other` for any unrecognized `$type` string (the switch's
`default` branch; its payload is never read by the plugin, so only the
`$type` string is kept). -/
inductive TokenValue where
  | color (v : String)
  | dimension (v : String)
  | duration (v : String)
  | font (names : List String)
  | cubicBezier (v : List Rat)
  | link (v : String)
  | shadow (v : ShadowValue)
  | gradient (stops : List GradientStop)
  | transition (v : TransitionValue)
  | typography (props : List (String × TypProp))
  | other (ty : String)
deriving DecidableEq, Repr

/-- The `$type` string of a token value (what `token.$type` holds). -/
def typeName : TokenValue → String
  | .color _ => "color"
  | .dimension _ => "dimension"
  | .duration _ => "duration"
  | .font _ => "font"
  | .cubicBezier _ => "cubicBezier"
  | .link _ => "link"
  | .shadow _ => "shadow"
  | .gradient _ => "gradient"
  | .transition _ => "transition"
  | .typography _ => "typography"
  | .other ty => ty

/-- JavaScript truthiness of a token value: strings are falsy exactly when
empty; arrays and objects are always truthy.  (An `other` payload is not
modelled and is taken to be truthy.) -/
def truthy : TokenValue → Bool
  | .color v => v ≠ ""
  | .dimension v => v ≠ ""
  | .duration v => v ≠ ""
  | .link v => v ≠ ""
  | .font _ => true
  | .cubicBezier _ => true
  | .shadow _ => true
  | .gradient _ => true
  | .transition _ => true
  | .typography _ => true
  | .other _ => true

/-- A resolved, flattened token as handed to the plugin: dotted `id`,
normalized `$value`, and the insertion-ordered `$extensions.mode` mapping
(`[]` when `$extensions`/`$extensions.mode` is absent — the source only ever
reads it through `|| {}` and truthiness checks, which cannot tell the two
apart). -/
structure ParsedToken where
  id : String
  value : TokenValue
  modes : List (String × TokenValue)
deriving DecidableEq, Repr

/-- Is the token value a `link` value (`token.$type === 'link'`)? -/
def isLink : TokenValue → Bool
  | .link _ => true
  | _ => false

/-- Is the token value a `typography` value (`token.$type === 'typography'`)? -/
def isTypography : TokenValue → Bool
  | .typography _ => true
  | _ => false

/-- The property record of a `typography` value.  Non-`typography` values
give `[]`: the core guarantees a mode value shares its token's declared type
(spec section 3), so `build` only ever applies this to `typography` records. -/
def typProps : TokenValue → List (String × TypProp)
  | .typography props => props
  | _ => []

/-- Rendering of an embedded number.  Integers render exactly as JavaScript
does; the JS decimal rendering of non-integers is not modelled (no verified
claim depends on it) and such values render in `num/den` form. -/
def numToString (q : Rat) : String :=
  if q.den = 1 then toString q.num else toString q.num ++ "/" ++ toString q.den

/-- Modelled from the spec: `formatFontNames` from `./util.js`, which is not
under `src/`.  Section 4.3: a `font` value is an ordered sequence of font
names with "quoting decided later at emission time"; the model quotes names
containing a space and joins the sequence with commas. -/
def formatFontNames (fontNames : List String) : String :=
  String.intercalate ","
    (fontNames.map (fun n => if n.data.contains ' ' then "\"" ++ n ++ "\"" else n))

/-- Modelled from the spec: `encode` from `./util.js`, which is not under
`src/`.  Section 6: with `embedFiles` the plugin "inlines referenced binary
assets as data literals instead of paths"; the referenced file's bytes live
outside the embedding, so the data literal is modelled as a tagged wrapper
of the output directory and the emitted value. -/
def encode (value : String) (outDir : String) : String :=
  "data-literal(" ++ outDir ++ "," ++ value ++ ")"

/-- Modelled from the spec: `Indenter.indent` from `@cobalt-ui/utils`, which
is not under `src/`.  Section 4.6's deterministic code emitter indentation:
`level` copies of a two-space indent before the line. -/
def indent (msg : String) (level : Nat) : String :=
  String.join (List.replicate level "  ") ++ msg

/-- transform color (`String(value)` on a string). -/
def transformColor (value : String) : String :=
  value

/-- transform dimension (`String(value)` on a string). -/
def transformDimension (value : String) : String :=
  value

/-- transform duration (`String(value)` on a string). -/
def transformDuration (value : String) : String :=
  value

/-- transform font. -/
def transformFont (value : List String) : String :=
  formatFontNames value

/-- transform cubic beziér. -/
def transformCubicBezier (value : List Rat) : String :=
  "cubic-bezier(" ++ String.intercalate ", " (value.map numToString) ++ ")"

/-- transform link. -/
def transformLink (value : String) : String :=
  "url('" ++ value ++ "')"

/-- transform shadow. -/
def transformShadow (value : ShadowValue) : String :=
  String.intercalate " " [value.offsetX, value.offsetY, value.blur, value.spread, value.color]

/-- transform gradient. -/
def transformGradient (value : List GradientStop) : String :=
  String.intercalate ", " (value.map (fun g => g.color ++ " " ++ numToString (g.position * 100) ++ "%"))

/-- transform transition (`[duration, delay, timingFunction].filter(v => v !== undefined).join(' ')`;
`duration` and `delay` are required by the value's type, so only an absent
`timingFunction` is filtered out). -/
def transformTransition (value : TransitionValue) : String :=
  String.intercalate " "
    ([value.duration, value.delay] ++
      (match value.timingFunction with
        | some tf => ["cubic-bezier(" ++ String.intercalate "," (tf.map numToString) ++ ")"]
        | none => []))

/-- The error thrown at `defaultTransformer`'s mode guard:
`Token ${token.id} missing "$extensions.mode.${mode}"`. -/
def missingModeMessage (id m : String) : String :=
  "Token " ++ id ++ " missing \"$extensions.mode." ++ m ++ "\""

/-- The error thrown by `defaultTransformer`'s `default` switch branch:
`No transformer defined for $type: ${token.$type} tokens`. -/
def noTransformerMessage (ty : String) : String :=
  "No transformer defined for $type: " ++ ty ++ " tokens"

/-- The switch of `defaultTransformer`, dispatching on the token's declared
`$type` (`declared`) and applying the per-type transform to the value being
formatted (`v` — the default `$value` or a mode value; the source casts it
to the declared type's shape).  A mode value whose shape differs from the
declared type would hit an unchecked cast whose JS coercions are not
modelled; the core forbids that shape (spec section 3), and the catch-all
arm returns a distinguished error. -/
def dispatchValue (declared v : TokenValue) : Except String String :=
  match declared, v with
  | .color _, .color s => .ok (transformColor s)
  | .dimension _, .dimension s => .ok (transformDimension s)
  | .duration _, .duration s => .ok (transformDuration s)
  | .font _, .font ns => .ok (transformFont ns)
  | .cubicBezier _, .cubicBezier b => .ok (transformCubicBezier b)
  | .link _, .link s => .ok (transformLink s)
  | .shadow _, .shadow sv => .ok (transformShadow sv)
  | .gradient _, .gradient gs => .ok (transformGradient gs)
  | .transition _, .transition tv => .ok (transformTransition tv)
  | .typography _, _ => .error (noTransformerMessage "typography")
  | .other ty, _ => .error (noTransformerMessage ty)
  | _, _ => .error "unmodelled: mode value shape differs from the declared $type"

/-- `defaultTransformer(token, mode?)`.  The guard
`if (mode && (!token.$extensions?.mode || !token.$extensions.mode[mode])) throw ...`
is conditioned on the truthiness of `mode` itself: the empty string is falsy
in JS, so a requested mode name `""` never fires the guard and — since every
switch arm selects `mode ? token.$extensions.mode[mode] : token.$value` —
formats the default `$value`, exactly like no mode at all (even when `""`
is a key of the mode map).  For a non-empty mode name the guard fires when
the mode is absent, or present with a falsy value; otherwise the switch
formats the mode value. -/
def defaultTransformer (token : ParsedToken) (mode : Option String) : Except String String :=
  match mode with
  | some m =>
    if m = "" then dispatchValue token.value token.value
    else
      match token.modes.lookup m with
      | none => .error (missingModeMessage token.id m)
      | some mv =>
        if truthy mv then dispatchValue token.value mv
        else .error (missingModeMessage token.id m)
  | none => dispatchValue token.value token.value

/-- The plugin's `Options` bag.  `transform` is the caller-supplied override
`(token, mode?) => string`; the fields absent from a user's options are
`none` (JS `undefined`). -/
structure Options where
  filename : Option String := none
  indentedSyntax : Option Bool := none
  embedFiles : Option Bool := none
  transform : Option (ParsedToken → Option String → String) := none

/-- `let ext = options?.indentedSyntax ? '.sass' : '.scss'`. -/
def extOf (o : Options) : String :=
  if o.indentedSyntax = some true then ".sass" else ".scss"

/-- `options?.indentedSyntax ? '' : ';'`. -/
def semiOf (o : Options) : String :=
  if o.indentedSyntax = some true then "" else ";"

/-- `options?.indentedSyntax ? '' : ' {'`. -/
def cbOpenOf (o : Options) : String :=
  if o.indentedSyntax = some true then "" else " \x7b"

/-- `options?.indentedSyntax ? '' : '} '`. -/
def cbCloseOf (o : Options) : String :=
  if o.indentedSyntax = some true then "" else "\x7d "

/-- `f.replace(/(\.(sass|scss))?$/, '')`: the optional group matches a
trailing `.sass`/`.scss` when there is one (removing those five characters)
and the empty string at the end otherwise (removing nothing). -/
def stripSassExt (f : String) : String :=
  if ".sass".data.isSuffixOf f.data || ".scss".data.isSuffixOf f.data then
    String.mk (f.data.take (f.data.length - 5))
  else f

/-- ``let filename = `${options?.filename?.replace(/(\.(sass|scss))?$/, '') || 'index'}${ext}` ``. -/
def filenameOf (o : Options) : String :=
  (match o.filename with
    | some f => if stripSassExt f = "" then "index" else stripSassExt f
    | none => "index") ++ extOf o

/-- JavaScript `\s` (ASCII range; the rare non-ASCII space characters never
occur in the emitted text). -/
def jsSpace (c : Char) : Bool :=
  c = ' ' || c = '\t' || c = '\n' || c = '\r' || c = '\x0b' || c = '\x0c'

/-- `String.prototype.trim()`: strip leading and trailing whitespace. -/
def jsTrim (s : String) : String :=
  String.mk (((s.data.dropWhile jsSpace).reverse.dropWhile jsSpace).reverse)

/-- Worker for `.replace(/\s+$/gm, '')`, scanning the reversed character
list.  Each maximal whitespace run ending at a line boundary loses the
greedy match `\s+` that ends there: a run at the very end of the string is
deleted whole (handled by the caller's `dropWhile`), and inside the string
the match ends at the run's last newline, so that newline is kept (first in
reversed order, the `false` state) and the whitespace before it is deleted
(the `true` state); whitespace not ending at a line boundary is kept. -/
def stripRevAux : Bool → List Char → List Char
  | _, [] => []
  | true, c :: cs =>
    if jsSpace c then stripRevAux true cs
    else c :: stripRevAux false cs
  | false, c :: cs =>
    if c = '\n' then '\n' :: stripRevAux true cs
    else c :: stripRevAux false cs

/-- `TRAILING_WS_RE = /\s+$/gm` applied with `.replace(..., '')`. -/
def stripTrailingWS (s : String) : String :=
  String.mk ((stripRevAux false (s.data.reverse.dropWhile jsSpace)).reverse)

/-- The `TOKEN_FN` template literal before `.trim().replace(TRAILING_WS_RE, '')`
(line 58's opening brace is a literal `{` in the source, not `cbOpen`). -/
def tokenFnRaw (o : Options) : String :=
  "@function token($tokenName, $modeName: default)" ++ cbOpenOf o ++ "\n" ++
  "  @if map.has-key($__token-values, $tokenName) == false" ++ cbOpenOf o ++ "\n" ++
  "    @error \"No token named \\\"#\x7b$tokenName\x7d\\\"\"" ++ semiOf o ++ "\n" ++
  "  " ++ cbCloseOf o ++ "\n" ++
  "  $_token: map.get($__token-values, $tokenName)" ++ semiOf o ++ "\n" ++
  "  @if map.has-key($_token, \"__cobalt-error\")" ++ cbOpenOf o ++ "\n" ++
  "    @error map.get($_token, \"__cobalt-error\")" ++ semiOf o ++ "\n" ++
  "  " ++ cbCloseOf o ++ "\n" ++
  "  @if map.has-key($_token, $modeName) \x7b\n" ++
  "    @return map.get($_token, $modeName)" ++ semiOf o ++ "\n" ++
  "  " ++ cbCloseOf o ++ "@else" ++ cbOpenOf o ++ "\n" ++
  "    @return map.get($_token, default)" ++ semiOf o ++ "\n" ++
  "  " ++ cbCloseOf o ++ "\n" ++
  cbCloseOf o

/-- `TOKEN_FN`. -/
def tokenFn (o : Options) : String :=
  stripTrailingWS (jsTrim (tokenFnRaw o))

/-- The `LIST_MODES_FN` template literal before trimming (several of its
statement terminators are literal semicolons in the source, independent of
the syntax mode). -/
def listModesFnRaw (o : Options) : String :=
  "@function listModes($tokenName)" ++ cbOpenOf o ++ "\n" ++
  "  @if map.has-key($__token-values, $tokenName) == false" ++ cbOpenOf o ++ "\n" ++
  "    @error \"No token named \\\"#\x7b$tokenName\x7d\\\"\"" ++ semiOf o ++ "\n" ++
  "  " ++ cbCloseOf o ++ "\n" ++
  "  $_modes: ();\n" ++
  "  @each $k in map.get($__token-values, $tokenName)" ++ cbOpenOf o ++ "\n" ++
  "    @if $k != \"default\"" ++ cbOpenOf o ++ "\n" ++
  "      $_modes: list.append($_modes, $k);\n" ++
  "    " ++ cbCloseOf o ++ "\n" ++
  "  " ++ cbCloseOf o ++ "\n" ++
  "  @return $_modes;\n" ++
  cbCloseOf o

/-- `LIST_MODES_FN`. -/
def listModesFn (o : Options) : String :=
  stripTrailingWS (jsTrim (listModesFnRaw o))

/-- The `TYPOGRAPHY_MIXIN` template literal before trimming. -/
def typographyMixinRaw (o : Options) : String :=
  "@mixin typography($tokenName, $modeName: default)" ++ cbOpenOf o ++ "\n" ++
  "  @if map.has-key($__token-typography-mixins, $tokenName) == false" ++ cbOpenOf o ++ "\n" ++
  "    @error \"No typography mixin named \\\"#\x7b$tokenName\x7d\\\"\"" ++ semiOf o ++ "\n" ++
  "  " ++ cbCloseOf o ++ "\n" ++
  "  $_mixin: map.get($__token-typography-mixins, $tokenName)" ++ semiOf o ++ "\n" ++
  "  $_properties: map.get($_mixin, default)" ++ semiOf o ++ "\n" ++
  "  @if map.has-key($_mixin, $modeName)" ++ cbOpenOf o ++ "\n" ++
  "    $_properties: map.get($_mixin, $modeName)" ++ semiOf o ++ "\n" ++
  "  " ++ cbCloseOf o ++ "\n" ++
  "  @each $_property, $_value in $_properties" ++ cbOpenOf o ++ "\n" ++
  "    #\x7b$_property\x7d: #\x7b$_value\x7d" ++ semiOf o ++ "\n" ++
  "  " ++ cbCloseOf o ++ "\n" ++
  cbCloseOf o

/-- `TYPOGRAPHY_MIXIN`. -/
def typographyMixin (o : Options) : String :=
  stripTrailingWS (jsTrim (typographyMixinRaw o))

/-- `CAMELCASE_RE = /([^A-Z])([A-Z])/g` applied with `.replace(..., '$1-$2')`:
scan left to right; at each non-uppercase character immediately followed by
an ASCII uppercase letter, insert a hyphen between the two and continue
after the pair (global matches do not overlap). -/
def camelSplit : List Char → List Char
  | [] => []
  | [c] => [c]
  | c1 :: c2 :: rest =>
    if ¬ c1.isUpper ∧ c2.isUpper then c1 :: '-' :: c2 :: camelSplit rest
    else c1 :: camelSplit (c2 :: rest)

/-- `k.replace(CAMELCASE_RE, '$1-$2').toLowerCase()` (ASCII lower-casing; the
emitted names are ASCII). -/
def camelKebab (k : String) : String :=
  String.mk ((camelSplit k.data).map Char.toLower)

/-- The claim's own reading of the canonicalization, stated for comparison
with `camelKebab`: a hyphen at each boundary from a lowercase letter to an
uppercase letter (left to right, non-overlapping), then lower-cased. -/
def specLowerUpperSplit : List Char → List Char
  | [] => []
  | [c] => [c]
  | c1 :: c2 :: rest =>
    if c1.isLower ∧ c2.isUpper then c1 :: '-' :: c2 :: specLowerUpperSplit rest
    else c1 :: specLowerUpperSplit (c2 :: rest)

/-- The claim's canonicalization on strings (for comparison with `camelKebab`). -/
def specLowerUpperKebab (k : String) : String :=
  String.mk ((specLowerUpperSplit k.data).map Char.toLower)

/-- Lexicographic comparison of character lists (by code point). -/
def lexCmp : List Char → List Char → Ordering
  | [], [] => .eq
  | [], _ :: _ => .lt
  | _ :: _, [] => .gt
  | a :: as, b :: bs =>
    if a < b then .lt else if b < a then .gt else lexCmp as bs

/-- Modelled from the spec: `String.prototype.localeCompare`, the host
collation primitive used by the sort comparator (the host library is an
external collaborator per sections 1 and 4.3, which only require a
deterministic order).  Modelled as a total order: case-insensitive
lexicographic comparison first, exact lexicographic comparison as the
tiebreak. -/
def localeCompare (s t : String) : Ordering :=
  match lexCmp (s.data.map Char.toLower) (t.data.map Char.toLower) with
  | .eq => lexCmp s.data t.data
  | o => o

/-- The boolean "does not compare greater" order induced by `localeCompare`,
the order under which the stable comparator sort arranges entries. -/
def localeLe (s t : String) : Bool :=
  match localeCompare s t with
  | .gt => false
  | _ => true

/-- The order the sort comparator `([a], [b]) => a.localeCompare(b)` induces
on property entries: the first key does not compare greater than the second. -/
def propKeyLe (x y : String × TypProp) : Prop :=
  localeLe x.1 y.1 = true

instance : DecidableRel propKeyLe :=
  fun x y => instDecidableEqBool (localeLe x.1 y.1) true

/-- `entries.sort(([a], [b]) => a.localeCompare(b))`: a stable sort of the
property entries by the collation of their keys.  `Array.prototype.sort` is
stable, and for a total preorder all stable sorts agree, so the model may
use insertion sort. -/
def sortProps (ps : List (String × TypProp)) : List (String × TypProp) :=
  List.insertionSort propKeyLe ps

/-- Rendering of a typography property value:
`Array.isArray(value) ? formatFontNames(value) : value` interpolated into
the line. -/
def renderTypProp : TypProp → String
  | .str s => s
  | .num n => toString n
  | .fonts ns => formatFontNames ns

/-- One emitted property line of a typography block (level-3 indent). -/
def typPropLine (p : String × TypProp) : String :=
  indent ("\"" ++ camelKebab p.1 ++ "\": (" ++ renderTypProp p.2 ++ "),") 3

/-- The lines a typography token contributes to `$__token-typography-mixins`:
its id, the sorted default properties, then each mode's sorted properties in
the mode mapping's own key order. -/
def typographyLines (token : ParsedToken) : List String :=
  [indent ("\"" ++ token.id ++ "\": (") 1, indent "default: (" 2]
  ++ (sortProps (typProps token.value)).map typPropLine
  ++ [indent ")," 2]
  ++ token.modes.flatMap (fun p =>
      [indent ("\"" ++ p.1 ++ "\": (") 2]
      ++ (sortProps (typProps p.2)).map typPropLine
      ++ [indent ")," 2])
  ++ [indent ")," 1]

/-- The lines a typography token contributes to `$__token-values`: a
single-entry map holding only the `__cobalt-error` message (the "bypass
normal route" branch of `build`). -/
def typographyErrorLines (id : String) : List String :=
  [indent ("\"" ++ id ++ "\": (") 1,
   indent ("\"__cobalt-error\": \"This is a typography mixin. Use `@include typography(\\\"" ++ id ++ "\\\")` instead.\",") 2,
   indent ")," 1]

example : camelKebab "fontSize" = "font-size" := by decide
example : camelKebab "lineHeight" = "line-height" := by decide
example : camelKebab "a2B" = "a2-b" := by decide
example : specLowerUpperKebab "a2B" = "a2b" := by decide
example : sortProps [("lineHeight", .str "1.5"), ("fontSize", .str "16px")]
    = [("fontSize", .str "16px"), ("lineHeight", .str "1.5")] := by decide

/-- The `ResolvedConfig` fields the spec names (section 3): output
directory, token source file list, ordered plugin list.  The plugin only
ever reads `outDir`. -/
structure ResolvedConfig where
  outDir : String
  tokenFiles : List String
  pluginNames : List String
deriving DecidableEq, Repr

/-- Document-level metadata handed to `build` (`metadata.name` may be absent). -/
structure Metadata where
  name : Option String := none
deriving DecidableEq, Repr

/-- `BuildResult`: `{filename, contents}` (this plugin only emits text). -/
structure BuildResult where
  filename : String
  contents : String
deriving DecidableEq, Repr

/-- The plugin's closed-over state: the `let config: ResolvedConfig`
variable its `config(c)` step assigns. -/
structure PluginState where
  config : Option ResolvedConfig
deriving DecidableEq, Repr

/-- The plugin's `config(c): void { config = c; }` step: it captures the
received config into the closure and performs no mutation, so the config
value after the call is the one received. -/
def configStep (st : PluginState) (c : ResolvedConfig) : PluginState × ResolvedConfig :=
  ({ st with config := some c }, c)

/-- `metadata.name || 'Design Tokens'`. -/
def metaName (meta : Metadata) : String :=
  match meta.name with
  | some n => if n = "" then "Design Tokens" else n
  | none => "Design Tokens"

/-- `const DEPENDENCIES = ['sass:list', 'sass:map']`. -/
def DEPENDENCIES : List String :=
  ["sass:list", "sass:map"]

/-- The value interpolated into a token's `default:`/mode line (source lines
132–133 and 138–139): the caller-supplied `options.transform` result when it
is a function and returns a truthy (non-empty) string, else
`defaultTransformer`; then, for a `link` token with `embedFiles` on, the
chosen value is passed through `encode(value, config.outDir)`.  A transformer
throw aborts `build` (the `Except` error). -/
def emittedValue (o : Options) (cfg : ResolvedConfig) (token : ParsedToken)
    (mode : Option String) : Except String String := do
  let v ← match o.transform with
    | some f => if f token mode = "" then defaultTransformer token mode else .ok (f token mode)
    | none => defaultTransformer token mode
  if isLink token.value = true ∧ o.embedFiles = some true then
    pure (encode v cfg.outDir)
  else
    pure v

/-- The lines a non-typography token contributes to `$__token-values`: the
id, the default value line, then one line per mode in the mode mapping's own
key order. -/
def nonTypographyLines (o : Options) (cfg : ResolvedConfig) (token : ParsedToken) :
    Except String (List String) := do
  let value ← emittedValue o cfg token none
  let modeLines ← token.modes.mapM (fun p => do
      let modeValue ← emittedValue o cfg token (some p.1)
      pure (indent ("\"" ++ p.1 ++ "\": (" ++ modeValue ++ "),") 2))
  pure ([indent ("\"" ++ token.id ++ "\": (") 1, indent ("default: (" ++ value ++ "),") 2]
        ++ modeLines ++ [indent ")," 1])

/-- The `$__token-values` entry of one token: the typography bypass or the
normal route. -/
def mainTokenBlock (o : Options) (cfg : ResolvedConfig) (token : ParsedToken) :
    Except String (List String) :=
  if isTypography token.value then .ok (typographyErrorLines token.id)
  else nonTypographyLines o cfg token

/-- One step of `build`'s token loop, threading the `output` line buffer and
the collected `typographyTokens`. -/
def buildStep (o : Options) (cfg : ResolvedConfig) (st : List String × List ParsedToken)
    (token : ParsedToken) : Except String (List String × List ParsedToken) :=
  if isTypography token.value then
    pure (st.1 ++ typographyErrorLines token.id, st.2 ++ [token])
  else do
    let ls ← nonTypographyLines o cfg token
    pure (st.1 ++ ls, st.2)

/-- `build({tokens, metadata})`: the SassDoc header, the `@use` lines, the
`$__token-values` map built over the token loop, the
`$__token-typography-mixins` map built from the collected typography tokens,
the three utility functions, and a single `{filename, contents}` result
joining the lines with newlines. -/
def build (o : Options) (cfg : ResolvedConfig) (tokens : List ParsedToken)
    (meta : Metadata) : Except String (List BuildResult) := do
  let output0 : List String :=
    ["////", "/// " ++ metaName meta, "/// Auto-generated from tokens.json.",
     "/// DO NOT EDIT!", "////", ""]
  let output1 := output0 ++ DEPENDENCIES.map (fun n => "@use \"" ++ n ++ "\"" ++ semiOf o) ++ [""]
  let output2 := output1 ++ [indent "$__token-values: (" 0]
  let st ← tokens.foldlM (buildStep o cfg) (output2, ([] : List ParsedToken))
  let output3 := st.1 ++ [")" ++ semiOf o, ""]
  let output4 := output3 ++ ["$__token-typography-mixins: ("]
    ++ st.2.flatMap typographyLines ++ [")" ++ semiOf o, ""]
  let output5 := output4 ++ [tokenFn o, "", listModesFn o, "", typographyMixin o, ""]
  pure [{ filename := filenameOf o, contents := String.intercalate "\n" output5 }]

/-- The fixed lines `build` pushes before the token loop. -/
def preambleLines (o : Options) (meta : Metadata) : List String :=
  ["////", "/// " ++ metaName meta, "/// Auto-generated from tokens.json.",
   "/// DO NOT EDIT!", "////", ""]
  ++ DEPENDENCIES.map (fun n => "@use \"" ++ n ++ "\"" ++ semiOf o) ++ [""]
  ++ [indent "$__token-values: (" 0]

/-- The lines `build` pushes after the token loop: the close of
`$__token-values`, the typography lookup structure (one block per typography
token, in flattened order), and the utility functions. -/
def postMainLines (o : Options) (tokens : List ParsedToken) : List String :=
  [")" ++ semiOf o, ""] ++ ["$__token-typography-mixins: ("]
  ++ (tokens.filter (fun t => isTypography t.value)).flatMap typographyLines
  ++ [")" ++ semiOf o, ""]
  ++ [tokenFn o, "", listModesFn o, "", typographyMixin o, ""]

/-- The full `output` line array of a successful `build`, factored as the
preamble, the per-token `$__token-values` blocks in input order, and the
trailer. -/
def outputLines (o : Options) (cfg : ResolvedConfig) (tokens : List ParsedToken)
    (meta : Metadata) : Except String (List String) :=
  (tokens.mapM (mainTokenBlock o cfg)).map
    (fun blocks => preambleLines o meta ++ blocks.flatten ++ postMainLines o tokens)

deriving instance DecidableEq for Except

/-- The strict key order: used to show a comparator sort of entries with
distinct keys is unique. -/
def propKeyLt (x y : String × TypProp) : Prop :=
  localeCompare x.1 y.1 = .lt

-- Concrete fixtures used by the claim witnesses and counterexamples below.
def handledType (v : TokenValue) : Bool :=
  match v with
  | .color _ => true
  | .dimension _ => true
  | .duration _ => true
  | .font _ => true
  | .cubicBezier _ => true
  | .link _ => true
  | .shadow _ => true
  | .gradient _ => true
  | .transition _ => true
  | .typography _ => false
  | .other _ => false

def c1wTransform : ParsedToken → Option String → String :=
  fun t _ => "override(" ++ t.id ++ ")"

def c1wOptions : Options :=
  { transform := some c1wTransform }

def c1wToken : ParsedToken :=
  ⟨"color.blue", .color "#0000ff", []⟩

def c1wConfig : ResolvedConfig :=
  ⟨"./out/", [], []⟩

def c1xOptions : Options :=
  { embedFiles := some true }

def c1xToken : ParsedToken :=
  ⟨"icon.alert", .link "/icons/alert.svg", []⟩

def c1xConfig : ResolvedConfig :=
  ⟨"./tokens/", [], []⟩

def c2wToken : ParsedToken :=
  ⟨"color.text", .color "#111111", [("dark", .color "#eeeeee")]⟩

def c2xToken : ParsedToken :=
  ⟨"color.brand", .color "red", []⟩

def c3wConfig : ResolvedConfig :=
  ⟨"./c3/", [], []⟩

def c3wToken : ParsedToken :=
  ⟨"space.m", .dimension "16px", [("compact", .dimension "12px"), ("cozy", .dimension "20px")]⟩

def c4wProps : List (String × TypProp) :=
  [("lineHeight", .str "1.2"), ("fontSize", .str "24px")]

def c4wToken : ParsedToken :=
  ⟨"type.heading", .typography c4wProps, []⟩

def c5wToken : ParsedToken :=
  ⟨"color.bg", .color "#ffffff", []⟩

def c8wToken : ParsedToken :=
  ⟨"type.body", .typography [("fontSize", .str "16px")], []⟩

def c8wTransform : ParsedToken → Option String → String :=
  fun _ _ => "should-never-appear"

def c9wToken : ParsedToken :=
  ⟨"type.caption", .typography [("fontSize", .str "12px")], []⟩

def c9xToken : ParsedToken :=
  ⟨"color.accent", .color "#ff8800", []⟩

def c10wOptions : Options :=
  { indentedSyntax := some true }

def c10wConfig : ResolvedConfig :=
  ⟨"./tokens/", [], []⟩

def c10xToken : ParsedToken :=
  ⟨"weight.bold", .other "fontWeight", []⟩

lemma string_ext {s t : String} (h : s.data = t.data) : s = t := by
  cases s
  cases t
  exact congrArg String.mk h

lemma lexCmp_eq_iff : ∀ a b : List Char, lexCmp a b = .eq ↔ a = b
  | [], [] => by simp [lexCmp]
  | [], _ :: _ => by simp [lexCmp]
  | _ :: _, [] => by simp [lexCmp]
  | a :: as, b :: bs => by
    by_cases h1 : a < b
    · simp only [lexCmp, if_pos h1, List.cons.injEq]
      constructor
      · intro h
        exact absurd h (by simp)
      · intro h
        exact absurd h.1 (ne_of_lt h1)
    · by_cases h2 : b < a
      · simp only [lexCmp, if_neg h1, if_pos h2, List.cons.injEq]
        constructor
        · intro h
          exact absurd h (by simp)
        · intro h
          exact absurd h.1.symm (ne_of_lt h2)
      · have hab : a = b := le_antisymm (not_lt.mp h2) (not_lt.mp h1)
        simp [lexCmp, h1, h2, hab, lexCmp_eq_iff as bs]

lemma lexCmp_swap : ∀ a b : List Char, lexCmp b a = (lexCmp a b).swap
  | [], [] => rfl
  | [], _ :: _ => rfl
  | _ :: _, [] => rfl
  | a :: as, b :: bs => by
    by_cases h1 : a < b
    · simp [lexCmp, h1, asymm h1, Ordering.swap]
    · by_cases h2 : b < a
      · simp [lexCmp, h1, h2, Ordering.swap]
      · simp [lexCmp, h1, h2, lexCmp_swap as bs]

lemma lexCmp_lt_trans : ∀ a b c : List Char, lexCmp a b = .lt → lexCmp b c = .lt →
    lexCmp a c = .lt
  | [], _ :: _, _ :: _ => by simp [lexCmp]
  | [], [], _ => by simp [lexCmp]
  | [], _ :: _, [] => by simp [lexCmp]
  | _ :: _, [], _ => by simp [lexCmp]
  | _ :: _, _ :: _, [] => by simp [lexCmp]
  | a :: as, b :: bs, c :: cs => by
    intro h1 h2
    have step : ∀ (x y : Char) (xs ys : List Char), lexCmp (x :: xs) (y :: ys) = .lt →
        x < y ∨ (x = y ∧ lexCmp xs ys = .lt) := by
      intro x y xs ys h
      by_cases hxy : x < y
      · exact Or.inl hxy
      · by_cases hyx : y < x
        · simp [lexCmp, hxy, hyx] at h
        · exact Or.inr ⟨le_antisymm (not_lt.mp hyx) (not_lt.mp hxy), by
            simpa [lexCmp, hxy, hyx] using h⟩
    rcases step a b as bs h1 with hab | ⟨hab, hab'⟩ <;>
      rcases step b c bs cs h2 with hbc | ⟨hbc, hbc'⟩
    · have : a < c := lt_trans hab hbc
      simp [lexCmp, this]
    · have : a < c := hbc ▸ hab
      simp [lexCmp, this]
    · have : a < c := hab ▸ hbc
      simp [lexCmp, this]
    · subst hab
      subst hbc
      simp [lexCmp, lexCmp_lt_trans as bs cs hab' hbc', lt_irrefl]

lemma localeCompare_eq_iff {s t : String} : localeCompare s t = .eq ↔ s = t := by
  constructor
  · intro h
    unfold localeCompare at h
    rcases hlow : lexCmp (s.data.map Char.toLower) (t.data.map Char.toLower) with _ | _ | _ <;>
      rw [hlow] at h
    · exact absurd h (by simp)
    · exact string_ext ((lexCmp_eq_iff _ _).mp h)
    · exact absurd h (by simp)
  · rintro rfl
    unfold localeCompare
    rw [(lexCmp_eq_iff _ _).mpr rfl]
    exact (lexCmp_eq_iff _ _).mpr rfl

lemma localeCompare_swap (s t : String) : localeCompare t s = (localeCompare s t).swap := by
  unfold localeCompare
  rw [lexCmp_swap (s.data.map Char.toLower) (t.data.map Char.toLower),
    lexCmp_swap s.data t.data]
  rcases lexCmp (s.data.map Char.toLower) (t.data.map Char.toLower) with _ | _ | _ <;>
    simp [Ordering.swap]

lemma localeCompare_lt_iff {s t : String} : localeCompare s t = .lt ↔
    lexCmp (s.data.map Char.toLower) (t.data.map Char.toLower) = .lt ∨
      (s.data.map Char.toLower = t.data.map Char.toLower ∧ lexCmp s.data t.data = .lt) := by
  unfold localeCompare
  rcases h : lexCmp (s.data.map Char.toLower) (t.data.map Char.toLower) with _ | _ | _
  · simp
  · have heq := (lexCmp_eq_iff _ _).mp h
    simp [heq]
  · have hne : ¬ s.data.map Char.toLower = t.data.map Char.toLower := by
      intro he
      rw [(lexCmp_eq_iff _ _).mpr he] at h
      exact absurd h (by simp)
    simp [hne]

lemma localeCompare_lt_trans {s t u : String} (h1 : localeCompare s t = .lt)
    (h2 : localeCompare t u = .lt) : localeCompare s u = .lt := by
  rcases localeCompare_lt_iff.mp h1 with hl1 | ⟨he1, hx1⟩ <;>
    rcases localeCompare_lt_iff.mp h2 with hl2 | ⟨he2, hx2⟩
  · exact localeCompare_lt_iff.mpr (Or.inl (lexCmp_lt_trans _ _ _ hl1 hl2))
  · exact localeCompare_lt_iff.mpr (Or.inl (he2 ▸ hl1))
  · exact localeCompare_lt_iff.mpr (Or.inl (he1 ▸ hl2))
  · exact localeCompare_lt_iff.mpr
      (Or.inr ⟨he1.trans he2, lexCmp_lt_trans _ _ _ hx1 hx2⟩)

lemma localeLe_iff {s t : String} :
    localeLe s t = true ↔ localeCompare s t = .lt ∨ s = t := by
  unfold localeLe
  rcases h : localeCompare s t with _ | _ | _ <;> simp [h]
  · rw [← localeCompare_eq_iff, h]
  · rw [← localeCompare_eq_iff, h]
    simp

lemma localeLe_total (s t : String) : localeLe s t = true ∨ localeLe t s = true := by
  unfold localeLe
  rcases h : localeCompare s t with _ | _ | _ <;> simp
  rw [localeCompare_swap, h]
  simp [Ordering.swap]

lemma localeLe_trans {s t u : String} (h1 : localeLe s t = true) (h2 : localeLe t u = true) :
    localeLe s u = true := by
  rcases localeLe_iff.mp h1 with hlt1 | rfl
  · rcases localeLe_iff.mp h2 with hlt2 | rfl
    · exact localeLe_iff.mpr (Or.inl (localeCompare_lt_trans hlt1 hlt2))
    · exact localeLe_iff.mpr (Or.inl hlt1)
  · exact h2

instance : IsTrans (String × TypProp) propKeyLe :=
  ⟨fun _ _ _ h1 h2 => localeLe_trans h1 h2⟩

instance : IsTotal (String × TypProp) propKeyLe :=
  ⟨fun x y => localeLe_total x.1 y.1⟩

lemma propKeyLt_antisymm {x y : String × TypProp} (h1 : propKeyLt x y) (h2 : propKeyLt y x) :
    x = y := by
  unfold propKeyLt at h1 h2
  rw [localeCompare_swap, h1] at h2
  exact absurd h2 (by simp [Ordering.swap])

lemma sortProps_sorted (ps : List (String × TypProp)) :
    List.Sorted propKeyLe (sortProps ps) :=
  List.sorted_insertionSort propKeyLe ps

lemma sortProps_perm (ps : List (String × TypProp)) : (sortProps ps).Perm ps :=
  List.perm_insertionSort propKeyLe ps

lemma sorted_strict_of_nodup {l : List (String × TypProp)}
    (hs : List.Sorted propKeyLe l) (hnd : (l.map Prod.fst).Nodup) :
    List.Pairwise propKeyLt l := by
  have hne : List.Pairwise (fun x y : String × TypProp => x.1 ≠ y.1) l :=
    List.pairwise_map.mp hnd
  exact (hs.and hne).imp (fun h => by
    rcases localeLe_iff.mp h.1 with hlt | heq
    · exact hlt
    · exact absurd heq h.2)

/-- The comparator sort of entries with pairwise-distinct keys does not
depend on the input order: any permutation sorts to the same list. -/
lemma sortProps_perm_invariant {ps ps' : List (String × TypProp)} (hp : ps.Perm ps')
    (hnd : (ps.map Prod.fst).Nodup) : sortProps ps = sortProps ps' := by
  have hperm : (sortProps ps).Perm (sortProps ps') :=
    ((sortProps_perm ps).trans hp).trans (sortProps_perm ps').symm
  have hnd1 : ((sortProps ps).map Prod.fst).Nodup :=
    (((sortProps_perm ps).map Prod.fst).nodup_iff).mpr hnd
  have hnd2 : ((sortProps ps').map Prod.fst).Nodup :=
    ((hperm.map Prod.fst).nodup_iff).mp hnd1
  have h1 := sorted_strict_of_nodup (sortProps_sorted ps) hnd1
  have h2 := sorted_strict_of_nodup (sortProps_sorted ps') hnd2
  exact @List.eq_of_perm_of_sorted _ propKeyLt ⟨fun _ _ ha hb => propKeyLt_antisymm ha hb⟩
    _ _ hperm h1 h2

lemma buildStep_eq (o : Options) (cfg : ResolvedConfig) (st : List String × List ParsedToken)
    (token : ParsedToken) :
    buildStep o cfg st token
      = (mainTokenBlock o cfg token).map
          (fun ls => (st.1 ++ ls, st.2 ++ if isTypography token.value then [token] else [])) := by
  unfold buildStep mainTokenBlock
  by_cases h : isTypography token.value
  · simp [h, Except.map, pure, Except.pure]
  · simp only [h, if_neg, Bool.false_eq_true, if_false]
    cases nonTypographyLines o cfg token <;>
      simp [Except.map, Bind.bind, Except.bind, pure, Except.pure]

lemma foldlM_buildStep (o : Options) (cfg : ResolvedConfig) :
    ∀ (tokens : List ParsedToken) (init : List String × List ParsedToken),
    tokens.foldlM (buildStep o cfg) init
      = (tokens.mapM (mainTokenBlock o cfg)).map
          (fun blocks =>
            (init.1 ++ blocks.flatten,
             init.2 ++ tokens.filter (fun t => isTypography t.value)))
  | [], init => by
    rw [List.foldlM_nil, List.mapM_nil]
    simp [Except.map, pure, Except.pure]
  | token :: tokens, init => by
    rw [List.foldlM_cons, List.mapM_cons, buildStep_eq]
    cases hb : mainTokenBlock o cfg token with
    | error e =>
      simp [hb, Except.map, Bind.bind, Except.bind]
    | ok ls =>
      simp only [Except.map, Bind.bind, Except.bind]
      rw [foldlM_buildStep o cfg tokens]
      cases hm : tokens.mapM (mainTokenBlock o cfg) with
      | error e =>
        simp [Except.map, Bind.bind, Except.bind]
      | ok blocks =>
        simp only [Except.map, Bind.bind, Except.bind, pure, Except.pure, List.flatten,
          List.filter]
        by_cases hty : isTypography token.value
        · simp [hty, List.append_assoc]
        · simp [hty, List.append_assoc]

/-- `build` factored through the per-token blocks: the `$__token-values`
section is the concatenation, in input order, of each token's block, and the
result is one file whose contents joins the lines with newlines. -/
lemma build_factored (o : Options) (cfg : ResolvedConfig) (tokens : List ParsedToken)
    (meta : Metadata) :
    build o cfg tokens meta
      = (outputLines o cfg tokens meta).map
          (fun ls => [{ filename := filenameOf o, contents := String.intercalate "\n" ls }]) := by
  unfold build outputLines
  rw [show (∀ (a : List String) (b : List ParsedToken) f,
      (Bind.bind (tokens.foldlM (buildStep o cfg) (a, b)) f : Except String (List BuildResult))
        = Bind.bind (tokens.foldlM (buildStep o cfg) (a, b)) f) from fun a b f => rfl]
  rw [foldlM_buildStep]
  cases hm : tokens.mapM (mainTokenBlock o cfg) with
  | error e =>
    simp [Except.map, Bind.bind, Except.bind]
  | ok blocks =>
    simp only [Except.map, Bind.bind, Except.bind, pure, Except.pure, preambleLines,
      postMainLines]
    simp [List.append_assoc]

lemma emittedValue_outDir {c₁ c₂ : ResolvedConfig} (h : c₁.outDir = c₂.outDir)
    (o : Options) (t : ParsedToken) (m : Option String) :
    emittedValue o c₁ t m = emittedValue o c₂ t m := by
  simp only [emittedValue, h]

lemma nonTypographyLines_outDir {c₁ c₂ : ResolvedConfig} (h : c₁.outDir = c₂.outDir)
    (o : Options) (t : ParsedToken) :
    nonTypographyLines o c₁ t = nonTypographyLines o c₂ t := by
  have he : ∀ (t' : ParsedToken) (m : Option String),
      emittedValue o c₁ t' m = emittedValue o c₂ t' m := fun t' m => emittedValue_outDir h o t' m
  unfold nonTypographyLines
  simp only [he]

lemma mainTokenBlock_outDir {c₁ c₂ : ResolvedConfig} (h : c₁.outDir = c₂.outDir)
    (o : Options) (t : ParsedToken) :
    mainTokenBlock o c₁ t = mainTokenBlock o c₂ t := by
  unfold mainTokenBlock
  rw [nonTypographyLines_outDir h]

lemma outputLines_outDir {c₁ c₂ : ResolvedConfig} (h : c₁.outDir = c₂.outDir)
    (o : Options) (tokens : List ParsedToken) (meta : Metadata) :
    outputLines o c₁ tokens meta = outputLines o c₂ tokens meta := by
  have hb : mainTokenBlock o c₁ = mainTokenBlock o c₂ :=
    funext (fun t => mainTokenBlock_outDir h o t)
  unfold outputLines
  rw [hb]

lemma build_outDir {c₁ c₂ : ResolvedConfig} (h : c₁.outDir = c₂.outDir)
    (o : Options) (tokens : List ParsedToken) (meta : Metadata) :
    build o c₁ tokens meta = build o c₂ tokens meta := by
  rw [build_factored, build_factored, outputLines_outDir h]


/-- The nine `$type` cases `defaultTransformer`'s switch handles. -/
lemma dispatchValue_unhandled {v : TokenValue} (h : handledType v = false) (w : TokenValue) :
    dispatchValue v w = .error (noTransformerMessage (typeName v)) := by
  cases v <;> simp [handledType] at h <;> cases w <;> rfl

lemma emittedValue_eq (o : Options) (cfg : ResolvedConfig) (t : ParsedToken)
    (m : Option String) :
    emittedValue o cfg t m
      = (match o.transform with
          | some f => if f t m = "" then defaultTransformer t m else .ok (f t m)
          | none => defaultTransformer t m).map
          (fun v => if isLink t.value = true ∧ o.embedFiles = some true then
              encode v cfg.outDir else v) := by
  unfold emittedValue
  rcases o.transform with _ | f
  · cases defaultTransformer t m <;>
      by_cases h : isLink t.value = true ∧ o.embedFiles = some true <;>
      simp [h, Except.map, Bind.bind, Except.bind, pure, Except.pure]
  · by_cases hf : f t m = ""
    · cases defaultTransformer t m <;>
        by_cases h : isLink t.value = true ∧ o.embedFiles = some true <;>
        simp [hf, h, Except.map, Bind.bind, Except.bind, pure, Except.pure]
    · by_cases h : isLink t.value = true ∧ o.embedFiles = some true <;>
        simp [hf, h, Except.map, Bind.bind, Except.bind, pure, Except.pure]

example : defaultTransformer ⟨"color.red", .color "#ff0000", []⟩ none = .ok "#ff0000" := rfl
example : defaultTransformer ⟨"color.red", .color "#ff0000", [("dark", .color "#aa0000")]⟩ (some "dark") = .ok "#aa0000" := rfl
example : defaultTransformer ⟨"color.red", .color "#ff0000", []⟩ (some "dark")
    = .error "Token color.red missing \"$extensions.mode.dark\"" := rfl
example : defaultTransformer ⟨"type.body", .typography [("fontSize", .str "16px")], []⟩ none
    = .error "No transformer defined for $type: typography tokens" := rfl

/-- C1 (amended): for every token routed through the transformer (`build`
bypasses typography tokens) and optional mode, the value chosen is the
caller-supplied override when provided and non-empty, otherwise the
`defaultTransformer` result, and an empty override result always falls
through to the default; when the token is a `link` token and `embedFiles`
is enabled the chosen value is additionally passed through
`encode(value, config.outDir)` before being emitted, and otherwise the
chosen value is emitted unchanged. -/
theorem C1_emitted_value_override_chain (o : Options) (cfg : ResolvedConfig)
    (t : ParsedToken) (m : Option String) :
    (o.transform = none →
      emittedValue o cfg t m = (defaultTransformer t m).map
        (fun v => if isLink t.value = true ∧ o.embedFiles = some true then
          encode v cfg.outDir else v)) ∧
    (∀ f, o.transform = some f → f t m ≠ "" →
      emittedValue o cfg t m = .ok
        (if isLink t.value = true ∧ o.embedFiles = some true then
          encode (f t m) cfg.outDir else f t m)) ∧
    (∀ f, o.transform = some f → f t m = "" →
      emittedValue o cfg t m = (defaultTransformer t m).map
        (fun v => if isLink t.value = true ∧ o.embedFiles = some true then
          encode v cfg.outDir else v)) ∧
    (¬ (isLink t.value = true ∧ o.embedFiles = some true) →
      (o.transform = none → emittedValue o cfg t m = defaultTransformer t m) ∧
      (∀ f, o.transform = some f → f t m ≠ "" → emittedValue o cfg t m = .ok (f t m)) ∧
      (∀ f, o.transform = some f → f t m = "" →
        emittedValue o cfg t m = defaultTransformer t m)) := by
  have he := emittedValue_eq o cfg t m
  refine ⟨?_, ?_, ?_, ?_⟩
  · intro h0
    rw [he, h0]
  · intro f hf hne
    rw [he, hf]
    simp [hne, Except.map]
  · intro f hf hemp
    rw [he, hf]
    simp [hemp]
  · intro hE
    refine ⟨?_, ?_, ?_⟩
    · intro h0
      rw [he, h0]
      cases defaultTransformer t m <;> simp [hE, Except.map]
    · intro f hf hne
      rw [he, hf]
      simp [hne, hE, Except.map]
    · intro f hf hemp
      rw [he, hf]
      cases defaultTransformer t m <;> simp [hemp, hE, Except.map]

/-- C1 witness: a non-empty override result is emitted for a concrete token. -/
theorem C1_emitted_value_override_chain_witness :
    emittedValue c1wOptions c1wConfig c1wToken none = Except.ok "override(color.blue)" := by
  have h := (C1_emitted_value_override_chain c1wOptions c1wConfig c1wToken none).2.1
    c1wTransform rfl (by decide)
  exact h.trans (by decide)

/-- C1 counterexample: with `embedFiles` enabled and no override, the emitted
value of a concrete `link` token is the `encode`d value, not the
`defaultTransformer` result the claim promises. -/
theorem C1_emitted_value_override_chain_cex :
    c1xOptions.transform = none ∧
    emittedValue c1xOptions c1xConfig c1xToken none ≠ defaultTransformer c1xToken none := by
  exact ⟨rfl, by decide⟩

/-- C2 (amended): `defaultTransformer` returns the formatted
`$extensions.mode[name]` value when a non-empty mode name is requested that
exists on the token with a truthy value, and formats the default `$value`
when no mode is requested or when the requested mode name is the empty
string (which is falsy in JS and therefore treated as no mode, even if
`""` is a key of the mode map); but requesting a non-empty mode that is
absent (or present with a falsy value) throws an error naming the token
and mode — it does not fall back to the default `$value`. -/
theorem C2_defaultTransformer_mode_dispatch (t : ParsedToken) :
    (defaultTransformer t none = dispatchValue t.value t.value) ∧
    (defaultTransformer t (some "") = dispatchValue t.value t.value) ∧
    (∀ m mv, m ≠ "" → t.modes.lookup m = some mv → truthy mv = true →
      defaultTransformer t (some m) = dispatchValue t.value mv) ∧
    (∀ m, m ≠ "" → t.modes.lookup m = none →
      defaultTransformer t (some m) = .error (missingModeMessage t.id m)) ∧
    (∀ m mv, m ≠ "" → t.modes.lookup m = some mv → truthy mv = false →
      defaultTransformer t (some m) = .error (missingModeMessage t.id m)) := by
  refine ⟨rfl, rfl, ?_, ?_, ?_⟩
  · intro m mv hm0 hm htr
    simp [defaultTransformer, hm0, hm, htr]
  · intro m hm0 hm
    simp [defaultTransformer, hm0, hm]
  · intro m mv hm0 hm htr
    simp [defaultTransformer, hm0, hm, htr]

/-- C2 witness: a present, truthy, non-empty mode value is formatted for a
concrete token. -/
theorem C2_defaultTransformer_mode_dispatch_witness :
    defaultTransformer c2wToken (some "dark") = Except.ok "#eeeeee" := by
  have h := (C2_defaultTransformer_mode_dispatch c2wToken).2.2.1 "dark"
    (TokenValue.color "#eeeeee") (by decide) (by decide) (by decide)
  exact h.trans (by decide)

/-- C2 counterexample: requesting the absent mode `dark` on a concrete token
throws instead of falling back to the formatted default `$value` `"red"`. -/
theorem C2_defaultTransformer_mode_dispatch_cex :
    defaultTransformer c2xToken (some "dark")
        = Except.error "Token color.brand missing \"$extensions.mode.dark\"" ∧
    defaultTransformer c2xToken (some "dark") ≠ Except.ok (transformColor "red") := by
  exact ⟨rfl, by decide⟩

/-- C3: `build`'s output emits tokens in input (flattened) order — the
`$__token-values` section is the concatenation of the per-token blocks in
input order (and the typography lookup keeps the same order via `filter`) —
and each token's block emits its default value line first, then one line per
mode in the mode mapping's own key order; likewise each typography block
emits the default property set first, then each mode's property set in key
order. -/
theorem C3_emission_order (o : Options) (cfg : ResolvedConfig)
    (tokens : List ParsedToken) (meta : Metadata) :
    (build o cfg tokens meta
      = (tokens.mapM (mainTokenBlock o cfg)).map
          (fun blocks => [BuildResult.mk (filenameOf o) (String.intercalate "\n"
              (preambleLines o meta ++ blocks.flatten ++ postMainLines o tokens))])) ∧
    (∀ t : ParsedToken, isTypography t.value = false →
      mainTokenBlock o cfg t
        = (emittedValue o cfg t none).bind (fun v =>
            (t.modes.mapM (fun p => (emittedValue o cfg t (some p.1)).map
                (fun mv => indent ("\"" ++ p.1 ++ "\": (" ++ mv ++ "),") 2))).map
              (fun modeLines =>
                [indent ("\"" ++ t.id ++ "\": (") 1, indent ("default: (" ++ v ++ "),") 2]
                ++ modeLines ++ [indent ")," 1]))) ∧
    (∀ t : ParsedToken, typographyLines t
      = [indent ("\"" ++ t.id ++ "\": (") 1, indent "default: (" 2]
        ++ (sortProps (typProps t.value)).map typPropLine ++ [indent ")," 2]
        ++ t.modes.flatMap (fun p => [indent ("\"" ++ p.1 ++ "\": (") 2]
            ++ (sortProps (typProps p.2)).map typPropLine ++ [indent ")," 2])
        ++ [indent ")," 1]) := by
  refine ⟨?_, ?_, fun t => rfl⟩
  · rw [build_factored]
    unfold outputLines
    cases tokens.mapM (mainTokenBlock o cfg) <;> simp [Except.map]
  · intro t h
    unfold mainTokenBlock nonTypographyLines
    simp only [h, Bool.false_eq_true, if_false]
    have hmap : (fun p : String × TokenValue =>
        (do
          let modeValue ← emittedValue o cfg t (some p.1)
          pure (indent ("\"" ++ p.1 ++ "\": (" ++ modeValue ++ "),") 2) : Except String String))
        = (fun p : String × TokenValue => (emittedValue o cfg t (some p.1)).map
            (fun mv => indent ("\"" ++ p.1 ++ "\": (" ++ mv ++ "),") 2)) := by
      funext p
      cases emittedValue o cfg t (some p.1) <;>
        simp [Except.map, Bind.bind, Except.bind, pure, Except.pure]
    rw [hmap]
    cases emittedValue o cfg t none <;>
      simp only [Bind.bind, Except.bind]
    cases t.modes.mapM (fun p : String × TokenValue => (emittedValue o cfg t (some p.1)).map
        (fun mv => indent ("\"" ++ p.1 ++ "\": (" ++ mv ++ "),") 2)) <;>
      simp [Except.map, Bind.bind, Except.bind, pure, Except.pure]

/-- C3 witness: the block of a concrete two-mode token is its id line, its
default line, then its mode lines in key order. -/
theorem C3_emission_order_witness :
    mainTokenBlock {} c3wConfig c3wToken
      = Except.ok ["  \"space.m\": (", "    default: (16px),", "    \"compact\": (12px),",
          "    \"cozy\": (20px),", "  ),"] := by
  have h := (C3_emission_order {} c3wConfig [c3wToken] {}).2.1 c3wToken (by decide)
  exact h.trans (by decide)

/-- C4 (amended): the emitted typography property names are the source keys
with a hyphen inserted at each boundary from a non-uppercase character to
an ASCII uppercase letter (scanning left to right without overlap), the
whole name then lower-cased; within each emitted block — the default value
and every mode value — the properties appear sorted by the collation of
their source keys, an order that is deterministic and, for distinct keys,
independent of the source key order. -/
theorem C4_typography_property_canonicalization (t : ParsedToken)
    (ps : List (String × TypProp)) (h : t.value = .typography ps) :
    (typographyLines t
      = [indent ("\"" ++ t.id ++ "\": (") 1, indent "default: (" 2]
        ++ (sortProps ps).map typPropLine ++ [indent ")," 2]
        ++ t.modes.flatMap (fun p => [indent ("\"" ++ p.1 ++ "\": (") 2]
            ++ (sortProps (typProps p.2)).map typPropLine ++ [indent ")," 2])
        ++ [indent ")," 1]) ∧
    (∀ p : String × TypProp, typPropLine p
      = indent ("\"" ++ camelKebab p.1 ++ "\": (" ++ renderTypProp p.2 ++ "),") 3) ∧
    (∀ qs : List (String × TypProp), List.Sorted propKeyLe (sortProps qs)) ∧
    (∀ qs qs' : List (String × TypProp), qs.Perm qs' → (qs.map Prod.fst).Nodup →
      sortProps qs = sortProps qs') := by
  refine ⟨?_, fun p => rfl, sortProps_sorted, fun qs qs' hp hnd => sortProps_perm_invariant hp hnd⟩
  unfold typographyLines
  rw [h]
  rfl

/-- C4 witness: a concrete typography token's block, with hyphenated
lower-cased names in sorted order. -/
theorem C4_typography_property_canonicalization_witness :
    typographyLines c4wToken
      = ["  \"type.heading\": (", "    default: (", "      \"font-size\": (24px),",
         "      \"line-height\": (1.2),", "    ),", "  ),"] := by
  have h := (C4_typography_property_canonicalization c4wToken c4wProps rfl).1
  exact h.trans (by decide)

/-- C4 counterexample: the canonicalization hyphenates every
non-uppercase-to-uppercase boundary, not only lower-to-upper ones (`"a2B"`
emits `a2-b`, the claim predicts `a2b`); and a block's emitted names need
not be in lexicographic order of the emitted names themselves (keys `aB`
and `a0` emit `a0` before `a-b`, yet `a-b` is lexicographically smaller),
so "sorted by property name" holds for the source keys' collation, not for
the emitted names. -/
theorem C4_typography_property_canonicalization_cex :
    camelKebab "a2B" = "a2-b" ∧ specLowerUpperKebab "a2B" = "a2b" ∧
    camelKebab "a2B" ≠ specLowerUpperKebab "a2B" ∧
    (sortProps [("aB", .str "x"), ("a0", .str "y")]).map (fun p => camelKebab p.1)
      = ["a0", "a-b"] ∧
    lexCmp (String.data "a-b") (String.data "a0") = .lt := by
  refine ⟨by decide, by decide, by decide, by decide, by decide⟩

/-- C5: `build` is deterministic — two runs on the same resolved token
sequence, the same metadata, and the same options and config produce equal
results, in particular byte-identical contents.  In this pure embedding
every iteration source is an explicit insertion-ordered list (`Object.keys`
and `Object.entries` orders) and the sort comparator is a fixed total
order, so the build output is a function of its inputs alone. -/
theorem C5_build_deterministic (o : Options) (cfg : ResolvedConfig)
    (t₁ t₂ : List ParsedToken) (m₁ m₂ : Metadata) (ht : t₁ = t₂) (hm : m₁ = m₂) :
    build o cfg t₁ m₁ = build o cfg t₂ m₂ := by
  rw [ht, hm]

/-- C5 witness: the two runs coincide on a concrete input. -/
theorem C5_build_deterministic_witness :
    build {} ⟨"./c5/", [], []⟩ [c5wToken] {} = build {} ⟨"./c5/", [], []⟩ [c5wToken] {} :=
  C5_build_deterministic {} ⟨"./c5/", [], []⟩ [c5wToken] [c5wToken] {} {} rfl rfl

/-- C6: with no `filename` option the output filename is `"index"` plus the
extension selected by `indentedSyntax`; with `indentedSyntax` absent or
false the extension is `".scss"`, statements end in `";"` and blocks are
delimited by braces (`" \x7b"` / `"\x7d "`), while `indentedSyntax: true`
selects `".sass"` with empty terminators and delimiters; a trailing
`.sass`/`.scss` of a user-supplied filename is stripped before the extension
is appended (a filename that is nothing but the extension falls back to
`"index"`). -/
theorem C6_filename_and_delimiters (o : Options) :
    (o.filename = none → filenameOf o = "index" ++ extOf o) ∧
    ((o.indentedSyntax = none ∨ o.indentedSyntax = some false) →
      extOf o = ".scss" ∧ semiOf o = ";" ∧ cbOpenOf o = " \x7b" ∧ cbCloseOf o = "\x7d ") ∧
    (o.indentedSyntax = some true →
      extOf o = ".sass" ∧ semiOf o = "" ∧ cbOpenOf o = "" ∧ cbCloseOf o = "") ∧
    (∀ f, o.filename = some f →
      filenameOf o = (if stripSassExt f = "" then "index" else stripSassExt f) ++ extOf o) ∧
    (stripSassExt "custom.sass" = "custom" ∧ stripSassExt "custom.scss" = "custom" ∧
      stripSassExt "custom.css" = "custom.css" ∧ stripSassExt ".scss" = "") := by
  refine ⟨?_, ?_, ?_, ?_, by decide, by decide, by decide, by decide⟩
  · intro h
    simp [filenameOf, h]
  · intro h
    rcases h with h | h <;> simp [extOf, semiOf, cbOpenOf, cbCloseOf, h]
  · intro h
    simp [extOf, semiOf, cbOpenOf, cbCloseOf, h]
  · intro f hf
    simp [filenameOf, hf]

/-- C6 witness: concrete filenames in both syntaxes. -/
theorem C6_filename_and_delimiters_witness :
    filenameOf { filename := some "custom.scss" } = "custom.scss" ∧
    filenameOf {} = "index.scss" ∧
    filenameOf { indentedSyntax := some true } = "index.sass" := by
  have h1 := (C6_filename_and_delimiters { filename := some "custom.scss" }).2.2.2.1
    "custom.scss" rfl
  have h2 := (C6_filename_and_delimiters ({} : Options)).1 rfl
  have h3 := (C6_filename_and_delimiters { indentedSyntax := some true }).1 rfl
  exact ⟨h1.trans (by decide), h2.trans (by decide), h3.trans (by decide)⟩

/-- C7: the plugin's `config` step only captures the received
`ResolvedConfig` into closed-over state and leaves it unchanged (every field
of the value after the call is the field received), and `build` reads the
captured config only through `outDir`: two configs agreeing on `outDir`
yield identical build results whatever their other fields. -/
theorem C7_config_unmutated_build_reads_outDir (st : PluginState) (c : ResolvedConfig)
    (o : Options) (c₁ c₂ : ResolvedConfig) (tokens : List ParsedToken) (meta : Metadata)
    (h : c₁.outDir = c₂.outDir) :
    (configStep st c).2 = c ∧
    (configStep st c).1.config = some c ∧
    build o c₁ tokens meta = build o c₂ tokens meta :=
  ⟨rfl, rfl, build_outDir h o tokens meta⟩

/-- C7 witness: two concrete configs differing in every field but `outDir`
build identically, and a concrete config passes through `configStep`
unchanged. -/
theorem C7_config_unmutated_build_reads_outDir_witness :
    (configStep ⟨none⟩ ⟨"./t/", ["a.json"], ["sass"]⟩).2 = ⟨"./t/", ["a.json"], ["sass"]⟩ ∧
    build {} ⟨"./t/", [], []⟩ [⟨"c.x", .color "#123456", []⟩] {}
      = build {} ⟨"./t/", ["b.json"], ["css"]⟩ [⟨"c.x", .color "#123456", []⟩] {} := by
  have h := C7_config_unmutated_build_reads_outDir ⟨none⟩ ⟨"./t/", ["a.json"], ["sass"]⟩
    {} ⟨"./t/", [], []⟩ ⟨"./t/", ["b.json"], ["css"]⟩ [⟨"c.x", .color "#123456", []⟩] {} rfl
  exact ⟨h.1, h.2.2⟩

/-- C8: a typography token's entry in `$__token-values` is exactly the
three-line block whose single entry is the `__cobalt-error` key holding the
mixin-redirect message; the block depends on nothing but the token's id —
in particular neither the caller-supplied override nor `defaultTransformer`
is consulted (the result is identical under any options and config) — so
the token's property values appear only in the separate
`$__token-typography-mixins` structure. -/
theorem C8_typography_bypass (o o' : Options) (cfg cfg' : ResolvedConfig) (t : ParsedToken)
    (h : isTypography t.value = true) :
    mainTokenBlock o cfg t = .ok (typographyErrorLines t.id) ∧
    mainTokenBlock o cfg t = mainTokenBlock o' cfg' t ∧
    typographyErrorLines t.id
      = [indent ("\"" ++ t.id ++ "\": (") 1,
         indent ("\"__cobalt-error\": \"This is a typography mixin. Use `@include typography(\\\""
           ++ t.id ++ "\\\")` instead.\",") 2,
         indent ")," 1] := by
  unfold mainTokenBlock
  refine ⟨by simp [h], by simp [h], rfl⟩

/-- C8 witness: a concrete typography token's main-map entry is the error
block, even under an override transform. -/
theorem C8_typography_bypass_witness :
    mainTokenBlock { transform := some c8wTransform } ⟨"./c8/", [], []⟩ c8wToken
      = Except.ok ["  \"type.body\": (",
          "    \"__cobalt-error\": \"This is a typography mixin. Use `@include typography(\\\"type.body\\\")` instead.\",",
          "  ),"] := by
  have h := (C8_typography_bypass { transform := some c8wTransform } {} ⟨"./c8/", [], []⟩
    ⟨"", [], []⟩ c8wToken (by decide)).1
  exact h.trans (by decide)

/-- C9 (amended): `defaultTransformer` throws for every token whose `$type`
is outside the nine handled switch cases (color, dimension, duration, font,
cubicBezier, link, shadow, gradient, transition) — in particular for
typography tokens — whatever mode is requested; and requesting a non-empty
mode name that is absent from `$extensions.mode` throws an error naming the
token id and the mode.  (The empty-string mode name is falsy in JS: the
guard never fires for it and the default `$value` is formatted instead, so
the throw is not unconditional on absence.) -/
theorem C9_defaultTransformer_throws (t : ParsedToken) :
    (handledType t.value = false →
      ∀ m : Option String, ∃ e, defaultTransformer t m = .error e) ∧
    (∀ m : String, m ≠ "" → t.modes.lookup m = none →
      defaultTransformer t (some m)
        = .error ("Token " ++ t.id ++ " missing \"$extensions.mode." ++ m ++ "\"")) := by
  constructor
  · intro hh m
    rcases m with _ | m
    · exact ⟨noTransformerMessage (typeName t.value), by
        unfold defaultTransformer
        rw [dispatchValue_unhandled hh]⟩
    · by_cases hm0 : m = ""
      · exact ⟨noTransformerMessage (typeName t.value), by
          simp [defaultTransformer, hm0, dispatchValue_unhandled hh]⟩
      · rcases hl : t.modes.lookup m with _ | mv
        · exact ⟨missingModeMessage t.id m, by simp [defaultTransformer, hm0, hl]⟩
        · by_cases htr : truthy mv = true
          · exact ⟨noTransformerMessage (typeName t.value), by
              simp [defaultTransformer, hm0, hl, htr, dispatchValue_unhandled hh]⟩
          · exact ⟨missingModeMessage t.id m, by simp [defaultTransformer, hm0, hl, htr]⟩
  · intro m hm0 hm
    simp [defaultTransformer, hm0, hm, missingModeMessage]

/-- C9 witness: a concrete typography token throws with and without a
requested mode, with the mode error naming the id and mode. -/
theorem C9_defaultTransformer_throws_witness :
    (∃ e, defaultTransformer c9wToken none = Except.error e) ∧
    defaultTransformer c9wToken (some "dark")
      = Except.error "Token type.caption missing \"$extensions.mode.dark\"" := by
  have h := C9_defaultTransformer_throws c9wToken
  exact ⟨h.1 (by decide) none, h.2 "dark" (by decide) (by decide)⟩

/-- C9 counterexample: requesting the empty-string mode — absent from a
concrete token's mode map — does not throw: the empty string is falsy, the
guard is skipped, and the formatted default `$value` is returned, so the
claim's "throws whenever a mode is requested that is absent" fails. -/
theorem C9_defaultTransformer_throws_cex :
    c9xToken.modes.lookup "" = none ∧
    defaultTransformer c9xToken (some "") = Except.ok "#ff8800" := by
  exact ⟨rfl, rfl⟩

/-- C10 (amended): whenever `build` completes (no transformer throw), it
returns exactly one `BuildResult`, whose filename is the one computed from
the options at plugin construction and whose contents joins the output
lines with newlines; a token whose `$type` has no transformer and no
override makes `build` throw instead of returning. -/
theorem C10_single_build_result (o : Options) (cfg : ResolvedConfig)
    (tokens : List ParsedToken) (meta : Metadata) :
    (build o cfg tokens meta = (outputLines o cfg tokens meta).map
      (fun ls => [BuildResult.mk (filenameOf o) (String.intercalate "\n" ls)])) ∧
    (∀ rs, build o cfg tokens meta = .ok rs →
      rs.length = 1 ∧
        ∃ ls, rs = [BuildResult.mk (filenameOf o) (String.intercalate "\n" ls)]) := by
  refine ⟨build_factored o cfg tokens meta, ?_⟩
  intro rs hr
  rw [build_factored] at hr
  cases ho : outputLines o cfg tokens meta with
  | error e =>
    rw [ho] at hr
    exact absurd hr (by simp [Except.map])
  | ok ls =>
    rw [ho] at hr
    simp only [Except.map, Except.ok.injEq] at hr
    subst hr
    exact ⟨rfl, ls, rfl⟩

/-- C10 witness: a concrete successful build returns exactly one result,
with the computed filename (here `index.sass`) and the newline-joined
contents. -/
theorem C10_single_build_result_witness :
    build c10wOptions c10wConfig [] {}
      = Except.ok [BuildResult.mk (filenameOf c10wOptions)
          (String.intercalate "\n" (preambleLines c10wOptions {} ++ postMainLines c10wOptions []))] ∧
    filenameOf c10wOptions = "index.sass" ∧
    (∀ rs, build c10wOptions c10wConfig [] {} = .ok rs → rs.length = 1) := by
  have h1 : outputLines c10wOptions c10wConfig [] {}
      = Except.ok (preambleLines c10wOptions {} ++ postMainLines c10wOptions []) := by
    rw [outputLines, List.mapM_nil]
    simp [Except.map, pure, Except.pure]
  have hb := (C10_single_build_result c10wOptions c10wConfig [] {}).1
  rw [h1] at hb
  simp only [Except.map] at hb
  refine ⟨hb, by decide, ?_⟩
  intro rs hr
  exact ((C10_single_build_result c10wOptions c10wConfig [] {}).2 rs hr).1

/-- C10 counterexample: on an input containing a token of an unhandled
`$type`, `build` throws rather than returning a sequence of results, so the
claim's "for every input ... returns" fails. -/
theorem C10_single_build_result_cex :
    build {} ⟨"./tokens/", [], []⟩ [c10xToken] {}
      = Except.error "No transformer defined for $type: fontWeight tokens" := by
  decide

end CobaltSass
